import Mathlib

/-
Shallow embedding of `src/control.rs` of dynein, a DynamoDB CLI.

Modelling conventions:
- rusoto `Option<T>` fields become Lean `Option`; only the fields the code
  under study reads are modelled.
- A Rust panic (a failing `unwrap()`/`expect()`) is modelled as a `none`
  result of an `Option`-returning embedding of the function.
- `std::process::exit(code)` and `app::bye(code, msg)` are modelled as
  explicit outcome values carrying the exit code.
- Rust `i64` becomes `Int` (no arithmetic is performed on these values, so
  overflow is irrelevant); Rust strings become Lean `String`.
- Effects that are inputs to the logic (the current UNIX time, the index
  returned by the interactive selector, the success or failure of the
  remote service call) are passed as explicit parameters.
-/

/-- Billing mode of a DynamoDB table, from `enum Mode` in control.rs. -/
inductive Mode where
  | Provisioned
  | OnDemand
deriving DecidableEq

/-- The on-demand sentinel string, `const ONDEMAND_API_SPEC` in control.rs. -/
def ONDEMAND_API_SPEC : String := "PAY_PER_REQUEST"

/-- rusoto `BillingModeSummary`: only the `billing_mode` field is read. -/
structure BillingModeSummary where
  billing_mode : Option String
deriving DecidableEq

/-- Embedding of `extract_mode` (control.rs lines 525-536).
`none` models the panic of `x.clone().billing_mode.unwrap()` when the
summary is present but carries no mode string. -/
def extract_mode : Option BillingModeSummary → Option Mode
  | none => some Mode.Provisioned
  | some x =>
    match x.billing_mode with
    | none => none
    | some m =>
      some (if m = ONDEMAND_API_SPEC then Mode.OnDemand else Mode.Provisioned)

/-- rusoto `ProvisionedThroughputDescription`: only the two capacity fields
are read. -/
structure ProvisionedThroughputDescription where
  read_capacity_units : Option Int
  write_capacity_units : Option Int
deriving DecidableEq

/-- Output capacity record, `struct PrintCapacityUnits` in control.rs. -/
structure PrintCapacityUnits where
  wcu : Int
  rcu : Int
deriving DecidableEq

/-- Embedding of `extract_capacity` (control.rs lines 538-548).
The outer `none` models the panics of `cap_desc.as_ref().unwrap()` and of
the unwraps of the two capacity fields in the Provisioned branch. -/
def extract_capacity (mode : Mode) (cap_desc : Option ProvisionedThroughputDescription) :
    Option (Option PrintCapacityUnits) :=
  if mode = Mode.OnDemand then some none
  else
    match cap_desc with
    | none => none
    | some desc =>
      match desc.write_capacity_units, desc.read_capacity_units with
      | some w, some r => some (some { wcu := w, rcu := r })
      | _, _ => none

/-- rusoto `StreamSpecification`: only `stream_view_type` is read. -/
structure StreamSpecification where
  stream_view_type : Option String
deriving DecidableEq

/-- Embedding of `extract_stream` (control.rs lines 598-602).
The outer `none` models the panics of `spec.unwrap()` and
`stream_view_type.unwrap()` when the ARN is present. -/
def extract_stream (arn : Option String) (spec : Option StreamSpecification) :
    Option (Option String) :=
  match arn with
  | none => some none
  | some a =>
    match spec with
    | none => none
    | some sp =>
      match sp.stream_view_type with
      | none => none
      | some vt => some (some (a ++ " (" ++ vt ++ ")"))

/-- C1: extract_capacity returns absent capacity for every OnDemand input,
regardless of the description; and for Provisioned mode with both read
capacity R and write capacity W present it returns exactly the pair with
rcu = R and wcu = W. -/
theorem extract_capacity_mode_gate :
    (∀ d : Option ProvisionedThroughputDescription,
      extract_capacity Mode.OnDemand d = some none) ∧
    (∀ R W : Int,
      extract_capacity Mode.Provisioned
        (some { read_capacity_units := some R, write_capacity_units := some W }) =
        some (some { wcu := W, rcu := R })) := by
  constructor
  · intro d; rfl
  · intro R W; rfl

/-- C5 counterexample: extract_mode is not total with no error cases. On a
present billing-mode summary whose embedded mode string is absent, the
function panics (modelled as `none`). -/
theorem extract_mode_panic_counterexample :
    extract_mode (some { billing_mode := none }) = none := rfl

/-- C5 (amended): extract_mode returns Provisioned when the summary is
absent; when the summary is present with an embedded mode string, it
returns OnDemand exactly when that string equals ONDEMAND_API_SPEC and
Provisioned otherwise; but when the summary is present with its mode
string absent, the function panics, so it is not error-free on every
optional summary. -/
theorem extract_mode_classification :
    (extract_mode none = some Mode.Provisioned) ∧
    (∀ s : String,
      extract_mode (some { billing_mode := some s }) =
        some (if s = ONDEMAND_API_SPEC then Mode.OnDemand else Mode.Provisioned)) ∧
    (extract_mode (some { billing_mode := none }) = none) := by
  refine ⟨rfl, ?_, rfl⟩
  intro s; rfl

/-- C9: extract_stream returns absent when the ARN is absent, regardless of
the specification; and when the ARN is present together with a
specification carrying a view type, it returns the single string
"arn (viewType)"; in particular "arn1" with "NEW_IMAGE" yields
"arn1 (NEW_IMAGE)". -/
theorem extract_stream_spec :
    (∀ sp : Option StreamSpecification, extract_stream none sp = some none) ∧
    (∀ a vt : String,
      extract_stream (some a) (some { stream_view_type := some vt }) =
        some (some (a ++ " (" ++ vt ++ ")"))) ∧
    (extract_stream (some "arn1") (some { stream_view_type := some "NEW_IMAGE" }) =
      some (some "arn1 (NEW_IMAGE)")) := by
  refine ⟨?_, ?_, by decide⟩
  · intro sp; rfl
  · intro a vt; rfl

/-- rusoto `KeySchemaElement`. -/
structure KeySchemaElement where
  attribute_name : String
  key_type : String
deriving DecidableEq

/-- rusoto `AttributeDefinition`. -/
structure AttributeDefinition where
  attribute_name : String
  attribute_type : String
deriving DecidableEq

/-- Rust `str::split(',')` on the underlying character list: splitting an
empty string yields one empty piece, and every comma starts a new piece. -/
def splitCommaChars : List Char → List (List Char)
  | [] => [[]]
  | c :: cs =>
    if c = ',' then [] :: splitCommaChars cs
    else
      match splitCommaChars cs with
      | [] => [[c]]
      | p :: ps => (c :: p) :: ps

/-- Embedding of `key_str.split(',').collect::<Vec<&str>>()` in control.rs. -/
def rustSplitComma (s : String) : List String :=
  (splitCommaChars s.data).map List.asString

/-- Embedding of Rust `str::to_uppercase` restricted to ASCII, which is all
the code's inputs use (key attribute type suffixes). -/
def rustToUpper (s : String) : String :=
  ⟨s.data.map Char.toUpper⟩

/-- The loop body of `generate_essential_key_definitions`, with `key_id`
made an explicit argument. `none` models `std::process::exit(1)` on a
specifier that splits into more than two parts (and the out-of-bounds
panic on an impossible empty split). -/
def genKeyDefs (key_id : Nat) :
    List String → Option (List KeySchemaElement × List AttributeDefinition)
  | [] => some ([], [])
  | key_str :: rest =>
    match rustSplitComma key_str with
    | [name] =>
      (genKeyDefs (key_id + 1) rest).map fun p =>
        ({ attribute_name := name,
           key_type := if key_id = 0 then "HASH" else "RANGE" } :: p.1,
         { attribute_name := name, attribute_type := "S" } :: p.2)
    | [name, ty] =>
      (genKeyDefs (key_id + 1) rest).map fun p =>
        ({ attribute_name := name,
           key_type := if key_id = 0 then "HASH" else "RANGE" } :: p.1,
         { attribute_name := name, attribute_type := rustToUpper ty } :: p.2)
    | _ => none

/-- Embedding of `generate_essential_key_definitions` (control.rs lines
454-480): `key_id` starts at 0. -/
def generate_essential_key_definitions (given_keys : List String) :
    Option (List KeySchemaElement × List AttributeDefinition) :=
  genKeyDefs 0 given_keys

/-- A specifier string is of the form "name" or "name,TYPE" exactly when
the code's comma split yields one or two pieces; this records that parse. -/
def specParse (s : String) : Option (String × Option String) :=
  match rustSplitComma s with
  | [n] => some (n, none)
  | [n, t] => some (n, some t)
  | _ => none


/-- C7: on one or two key specifiers of the form name[,TYPE] with TYPE
among S, N and B, the generator assigns HASH to the first and RANGE to the
second specifier and emits one attribute definition per specifier whose
type is the given TYPE, defaulting to "S" when omitted. -/
theorem generate_key_defs_roles_and_types :
    (∀ s1 s2 n1 n2 o1 o2,
      specParse s1 = some (n1, o1) → specParse s2 = some (n2, o2) →
      (∀ t, o1 = some t → t ∈ (["S", "N", "B"] : List String)) →
      (∀ t, o2 = some t → t ∈ (["S", "N", "B"] : List String)) →
      generate_essential_key_definitions [s1, s2] =
        some ([{ attribute_name := n1, key_type := "HASH" },
               { attribute_name := n2, key_type := "RANGE" }],
              [{ attribute_name := n1, attribute_type := o1.getD "S" },
               { attribute_name := n2, attribute_type := o2.getD "S" }])) ∧
    (∀ s n o,
      specParse s = some (n, o) →
      (∀ t, o = some t → t ∈ (["S", "N", "B"] : List String)) →
      generate_essential_key_definitions [s] =
        some ([{ attribute_name := n, key_type := "HASH" }],
              [{ attribute_name := n, attribute_type := o.getD "S" }])) := by
  have upper_fix : ∀ t : String, t ∈ (["S", "N", "B"] : List String) → rustToUpper t = t := by
    intro t ht
    simp only [List.mem_cons, List.not_mem_nil, or_false] at ht
    rcases ht with rfl | rfl | rfl <;> decide
  have parse_cases : ∀ s n (o : Option String), specParse s = some (n, o) →
      (o = none ∧ rustSplitComma s = [n]) ∨ (∃ t, o = some t ∧ rustSplitComma s = [n, t]) := by
    intro s n o h
    unfold specParse at h
    rcases hs : rustSplitComma s with _ | ⟨a, _ | ⟨b, _ | _⟩⟩ <;> rw [hs] at h <;>
      simp_all
  have one : ∀ k s n (o : Option String), specParse s = some (n, o) →
      (∀ t, o = some t → t ∈ (["S", "N", "B"] : List String)) →
      genKeyDefs k [s] =
        some ([{ attribute_name := n, key_type := if k = 0 then "HASH" else "RANGE" }],
              [{ attribute_name := n, attribute_type := o.getD "S" }]) := by
    intro k s n o h hmem
    rcases parse_cases s n o h with ⟨rfl, hs⟩ | ⟨t, rfl, hs⟩
    · simp [genKeyDefs, hs]
    · simp [genKeyDefs, hs, upper_fix t (hmem t rfl)]
  constructor
  · intro s1 s2 n1 n2 o1 o2 h1 h2 m1 m2
    rcases parse_cases s1 n1 o1 h1 with ⟨rfl, hs1⟩ | ⟨t1, rfl, hs1⟩ <;>
      rcases parse_cases s2 n2 o2 h2 with ⟨rfl, hs2⟩ | ⟨t2, rfl, hs2⟩
    · simp [generate_essential_key_definitions, genKeyDefs, hs1, hs2]
    · simp [generate_essential_key_definitions, genKeyDefs, hs1, hs2,
        upper_fix t2 (m2 t2 rfl)]
    · simp [generate_essential_key_definitions, genKeyDefs, hs1, hs2,
        upper_fix t1 (m1 t1 rfl)]
    · simp [generate_essential_key_definitions, genKeyDefs, hs1, hs2,
        upper_fix t1 (m1 t1 rfl), upper_fix t2 (m2 t2 rfl)]
  · intro s n o h hmem
    exact one 0 s n o h hmem

/-- C10: a specifier with any type suffix is accepted and its suffix is
uppercased, with no validation against the set of legal scalar types. -/
theorem generate_key_defs_uppercase_no_validation :
    ∀ s n t, rustSplitComma s = [n, t] →
      generate_essential_key_definitions [s] =
        some ([{ attribute_name := n, key_type := "HASH" }],
              [{ attribute_name := n, attribute_type := rustToUpper t }]) := by
  intro s n t hs
  simp [generate_essential_key_definitions, genKeyDefs, hs]

/-- C7 witness: the generator on the two spec examples. -/
theorem generate_key_defs_roles_and_types_witness :
    (generate_essential_key_definitions ["pk,S", "sk,N"] =
      some ([{ attribute_name := "pk", key_type := "HASH" },
             { attribute_name := "sk", key_type := "RANGE" }],
            [{ attribute_name := "pk", attribute_type := "S" },
             { attribute_name := "sk", attribute_type := "N" }])) ∧
    (generate_essential_key_definitions ["id"] =
      some ([{ attribute_name := "id", key_type := "HASH" }],
            [{ attribute_name := "id", attribute_type := "S" }])) := by
  constructor
  · exact generate_key_defs_roles_and_types.1 "pk,S" "sk,N" "pk" "sk" (some "S") (some "N")
      (by decide) (by decide)
      (fun t ht => by injection ht with h; subst h; decide)
      (fun t ht => by injection ht with h; subst h; decide)
  · exact generate_key_defs_roles_and_types.2 "id" "id" none (by decide)
      (fun t ht => by cases ht)

/-- C10 witness: a lowercase suffix "s" is normalized to "S" and an
arbitrary suffix "x" is accepted as "X". -/
theorem generate_key_defs_uppercase_no_validation_witness :
    (generate_essential_key_definitions ["pk,s"] =
      some ([{ attribute_name := "pk", key_type := "HASH" }],
            [{ attribute_name := "pk", attribute_type := "S" }])) ∧
    (generate_essential_key_definitions ["pk,x"] =
      some ([{ attribute_name := "pk", key_type := "HASH" }],
            [{ attribute_name := "pk", attribute_type := "X" }])) := by
  constructor
  · have h := generate_key_defs_uppercase_no_validation "pk,s" "pk" "s" (by decide)
    rw [h]; decide
  · have h := generate_key_defs_uppercase_no_validation "pk,x" "pk" "x" (by decide)
    rw [h]; decide

/-- Modelled from the spec: `app::typed_key` / `TypedKey` live in the app
module, which is not part of the sources here. A TypedKey combines an
attribute name and its scalar type tag. -/
structure TypedKey where
  name : String
  kind : String
deriving DecidableEq

/-- Modelled from the spec: the display form of a TypedKey combines the
attribute name and its type tag into one string, as in pk (S). -/
def TypedKey.display (k : TypedKey) : String :=
  k.name ++ " (" ++ k.kind ++ ")"

/-- Modelled from the spec: `app::typed_key_for_schema` (app module, not in
the sources here). Find the schema entry whose role matches the request,
then find the attribute definition sharing its name; combine name and type
into a TypedKey. A failed lookup yields absence. -/
def typed_key_for_schema (role : String) (ks : List KeySchemaElement)
    (attrs : List AttributeDefinition) : Option TypedKey :=
  (ks.find? fun k => k.key_type = role).bind fun k =>
    (attrs.find? fun a => a.attribute_name = k.attribute_name).map fun a =>
      { name := k.attribute_name, kind := a.attribute_type }

/-- Output key record, `struct PrintPrimaryKeys` in control.rs. -/
structure PrintPrimaryKeys where
  pk : String
  sk : Option String
deriving DecidableEq

/-- Output index record, `struct PrintSecondaryIndex` in control.rs. -/
structure PrintSecondaryIndex where
  name : String
  schema : PrintPrimaryKeys
  capacity : Option PrintCapacityUnits
deriving DecidableEq

/-- The `trait IndexDesc` of control.rs: capability set of the two
secondary-index variants. `extract_index_capacity` returns an outer
`none` on a panic inside the capacity extraction. -/
class IndexDesc (α : Type) where
  retrieve_index_name : α → Option String
  retrieve_key_schema : α → Option (List KeySchemaElement)
  extract_index_capacity : α → Mode → Option (Option PrintCapacityUnits)

/-- rusoto `GlobalSecondaryIndexDescription`: only the fields the trait
impl reads are modelled. -/
structure GlobalSecondaryIndexDescription where
  index_name : Option String
  key_schema : Option (List KeySchemaElement)
  provisioned_throughput : Option ProvisionedThroughputDescription
deriving DecidableEq

/-- rusoto `LocalSecondaryIndexDescription`: only the fields the trait
impl reads are modelled. -/
structure LocalSecondaryIndexDescription where
  index_name : Option String
  key_schema : Option (List KeySchemaElement)
deriving DecidableEq

/-- `impl IndexDesc for GlobalSecondaryIndexDescription` (control.rs lines
556-563): OnDemand yields no capacity, otherwise delegate to
extract_capacity on the index's own throughput. -/
instance : IndexDesc GlobalSecondaryIndexDescription where
  retrieve_index_name g := g.index_name
  retrieve_key_schema g := g.key_schema
  extract_index_capacity g m :=
    if m = Mode.OnDemand then some none
    else extract_capacity m g.provisioned_throughput

/-- `impl IndexDesc for LocalSecondaryIndexDescription` (control.rs lines
565-571): unlike a GSI, an LSI does not have its own capacity. -/
instance : IndexDesc LocalSecondaryIndexDescription where
  retrieve_index_name l := l.index_name
  retrieve_key_schema l := l.key_schema
  extract_index_capacity _ _ := some none

/-- One iteration of the loop in `extract_secondary_indexes` (control.rs
lines 580-593). `none` models the unwraps of the key schema and index name,
the expect on the partition key, and a panic inside the capacity call. -/
def extract_one_index {α : Type} [IndexDesc α] (mode : Mode)
    (attr_defs : List AttributeDefinition) (idx : α) : Option PrintSecondaryIndex :=
  match IndexDesc.retrieve_key_schema idx with
  | none => none
  | some ks =>
    match IndexDesc.retrieve_index_name idx with
    | none => none
    | some nm =>
      match typed_key_for_schema "HASH" ks attr_defs with
      | none => none
      | some pk =>
        match IndexDesc.extract_index_capacity idx mode with
        | none => none
        | some cap =>
          some { name := nm,
                 schema := { pk := pk.display,
                             sk := (typed_key_for_schema "RANGE" ks attr_defs).map
                                     TypedKey.display },
                 capacity := cap }

/-- The loop of `extract_secondary_indexes`, pushing one output record per
raw index in source order; any panic aborts the whole extraction. -/
def extract_index_list {α : Type} [IndexDesc α] (mode : Mode)
    (attr_defs : List AttributeDefinition) :
    List α → Option (List PrintSecondaryIndex)
  | [] => some []
  | i :: is =>
    match extract_one_index mode attr_defs i with
    | none => none
    | some x => (extract_index_list mode attr_defs is).map (x :: ·)

/-- Embedding of `extract_secondary_indexes` (control.rs lines 574-596):
absent input yields absent output, otherwise one record per index. -/
def extract_secondary_indexes {α : Type} [IndexDesc α] (mode : Mode)
    (attr_defs : List AttributeDefinition) :
    Option (List α) → Option (Option (List PrintSecondaryIndex))
  | none => some none
  | some idxs => (extract_index_list mode attr_defs idxs).map some

/-- Helper: one normalized LSI record always carries absent capacity. -/
theorem extract_one_index_lsi_capacity
    (mode : Mode) (attr_defs : List AttributeDefinition)
    (i : LocalSecondaryIndexDescription) (y : PrintSecondaryIndex)
    (h1 : extract_one_index mode attr_defs i = some y) : y.capacity = none := by
  unfold extract_one_index at h1
  split at h1
  · cases h1
  · split at h1
    · cases h1
    · split at h1
      · cases h1
      · simp only [Option.some.injEq] at h1
        subst h1
        rfl

/-- C6: every SecondaryIndexDescriptor normalized from a local secondary
index has absent capacity, for every mode and attribute definitions. -/
theorem lsi_capacity_always_absent :
    ∀ (mode : Mode) (attr_defs : List AttributeDefinition)
      (lsis : List LocalSecondaryIndexDescription) (out : List PrintSecondaryIndex),
      extract_secondary_indexes mode attr_defs (some lsis) = some (some out) →
      ∀ x ∈ out, x.capacity = none := by
  intro mode attr_defs lsis
  induction lsis with
  | nil =>
    intro out h x hx
    simp [extract_secondary_indexes, extract_index_list] at h
    subst h
    cases hx
  | cons i is ih =>
    intro out h x hx
    simp only [extract_secondary_indexes, extract_index_list] at h
    rcases h1 : extract_one_index mode attr_defs i with _ | y
    · rw [h1] at h; cases h
    · rw [h1] at h
      rcases h2 : extract_index_list mode attr_defs is with _ | ys
      · rw [h2] at h; cases h
      · rw [h2] at h
        simp only [Option.map_some', Option.some.injEq] at h
        subst h
        rcases List.mem_cons.mp hx with hhead | hmem
        · rw [hhead]
          exact extract_one_index_lsi_capacity mode attr_defs i y h1
        · exact ih ys (by simp [extract_secondary_indexes, h2]) x hmem

/-- C6 witness: one concrete local index normalized under Provisioned mode
yields a descriptor whose capacity is absent. -/
theorem lsi_capacity_always_absent_witness :
    ({ name := "idx1", schema := { pk := "pk (S)", sk := none },
       capacity := none } : PrintSecondaryIndex).capacity = none :=
  lsi_capacity_always_absent Mode.Provisioned
    [{ attribute_name := "pk", attribute_type := "S" }]
    [{ index_name := some "idx1",
       key_schema := some [{ attribute_name := "pk", key_type := "HASH" }] }]
    [{ name := "idx1", schema := { pk := "pk (S)", sk := none }, capacity := none }]
    (by decide)
    { name := "idx1", schema := { pk := "pk (S)", sk := none }, capacity := none }
    (by decide)

/-- rusoto `BackupSummary`: only the fields the restore path reads are
modelled; the creation time (an `f64` epoch) is modelled as an `Int`, since
the code only checks its presence and formats it for display. -/
structure BackupSummary where
  backup_name : Option String
  backup_arn : Option String
  backup_status : Option String
  backup_creation_date_time : Option Int
  backup_size_bytes : Option Int
deriving DecidableEq

/-- Embedding of the eligibility filter in `restore` (control.rs lines
378-382): keep the backups whose status is "AVAILABLE". `none` models the
panic of `b.backup_status.unwrap()` on a summary with no status. -/
def filterAvailable : List BackupSummary → Option (List BackupSummary)
  | [] => some []
  | b :: bs =>
    match b.backup_status with
    | none => none
    | some s =>
      (filterAvailable bs).map fun r => if s = "AVAILABLE" then b :: r else r

/-- The `find` call inside `fetch_arn_from_backup_name`: the outer `none`
models the panic of `b.backup_name.unwrap()` inside the predicate; the
inner `Option` is the find result itself. -/
def findByName (backup_name : String) : List BackupSummary → Option (Option BackupSummary)
  | [] => some none
  | b :: bs =>
    match b.backup_name with
    | none => none
    | some n => if n = backup_name then some (some b) else findByName backup_name bs

/-- Embedding of `fetch_arn_from_backup_name` (control.rs lines 362-369).
`none` models the three possible panics: inside the find predicate, the
unwrap of the find result when no backup matches, and the unwrap of a
missing ARN. -/
def fetch_arn_from_backup_name (backup_name : String)
    (available_backups : List BackupSummary) : Option String :=
  match findByName backup_name available_backups with
  | none => none
  | some none => none
  | some (some b) => b.backup_arn

/-- The interactive branch of `restore` builds one label per available
backup, unwrapping its name, creation time and size (control.rs lines
390-396); this records whether all those unwraps succeed. -/
def selectionTextsOk (available_backups : List BackupSummary) : Bool :=
  available_backups.all fun b =>
    b.backup_name.isSome && b.backup_creation_date_time.isSome &&
      b.backup_size_bytes.isSome

/-- Embedding of the `backup_arn` resolution in `restore` (control.rs lines
387-412): an explicit name goes through fetch_arn_from_backup_name; with no
name the interactive selector picks an index into the available list (the
selector is an external capability, so the chosen index is a parameter).
`none` models any panic on the way. -/
def resolve_backup_arn (backup_name : Option String)
    (available_backups : List BackupSummary) (selection : Nat) : Option String :=
  match backup_name with
  | some bname => fetch_arn_from_backup_name bname available_backups
  | none =>
    if selectionTextsOk available_backups then
      match available_backups.get? selection with
      | some b => b.backup_arn
      | none => none
    else none

/-- Outcome of one run of the `restore` workflow.
Modelled from the spec: `app::bye(code, msg)` (app module, not in the
sources here) reports the message and exits the process with the given
code; it is modelled as the `bye` outcome. `panic` models a Rust panic
(the process aborts; no restore request is issued). `finished` means the
restore request was issued with the given backup ARN and target table name
and the function returned normally (the command then exits 0); `callFailed`
records whether the service call returned an error, which the code only
logs at debug level. -/
inductive RestoreOutcome where
  | bye (code : Nat) (msg : String)
  | panic
  | finished (backup_arn : String) (target_table_name : String) (callFailed : Bool)
deriving DecidableEq

/-- Embedding of `restore` (control.rs lines 375-445). The current UNIX
time, the interactive selection and the service-call result are inputs. -/
def restore (backups : List BackupSummary) (backup_name restore_name : Option String)
    (source_table_name : String) (epoch : Nat) (selection : Nat)
    (callFails : Bool) : RestoreOutcome :=
  match filterAvailable backups with
  | none => RestoreOutcome.panic
  | some available_backups =>
    if available_backups.length = 0 then
      RestoreOutcome.bye 0 "No AVAILABLE state backup found for the table."
    else
      match resolve_backup_arn backup_name available_backups selection with
      | none => RestoreOutcome.panic
      | some backup_arn =>
        let target_table_name :=
          match restore_name with
          | none => source_table_name ++ "--restore-" ++ Nat.repr epoch
          | some r => r
        RestoreOutcome.finished backup_arn target_table_name callFails

/-- Process exit code of a restore outcome: `bye` exits with its code, a
Rust panic aborts the process with code 101, and a normally returning
`restore` lets the command exit 0 — also when the service call failed,
since the error branch only logs at debug level (control.rs lines
430-436). -/
def restoreExitCode : RestoreOutcome → Nat
  | RestoreOutcome.bye c _ => c
  | RestoreOutcome.panic => 101
  | RestoreOutcome.finished _ _ _ => 0

/-- Helper: every backup kept by the eligibility filter comes from the raw
list and has status "AVAILABLE". -/
theorem filterAvailable_mem :
    ∀ (backups avail : List BackupSummary),
      filterAvailable backups = some avail →
      ∀ b ∈ avail, b ∈ backups ∧ b.backup_status = some "AVAILABLE" := by
  intro backups
  induction backups with
  | nil =>
    intro avail h b hb
    simp only [filterAvailable, Option.some.injEq] at h
    subst h; cases hb
  | cons hd tl ih =>
    intro avail h b hb
    simp only [filterAvailable] at h
    rcases hst : hd.backup_status with _ | s <;> rw [hst] at h
    · cases h
    · rcases hft : filterAvailable tl with _ | r <;> rw [hft] at h
      · cases h
      · simp only [Option.map_some', Option.some.injEq] at h
        subst h
        by_cases hs : s = "AVAILABLE"
        · rw [if_pos hs] at hb
          rcases List.mem_cons.mp hb with rfl | hmem
          · exact ⟨List.mem_cons_self _ _, by rw [hst, hs]⟩
          · rcases ih r hft b hmem with ⟨h1, h2⟩
            exact ⟨List.mem_cons_of_mem _ h1, h2⟩
        · rw [if_neg hs] at hb
          rcases ih r hft b hb with ⟨h1, h2⟩
          exact ⟨List.mem_cons_of_mem _ h1, h2⟩

/-- Helper: a successfully fetched ARN belongs to a backup of the searched
list bearing exactly the searched name. -/
theorem fetch_arn_sound :
    ∀ (avail : List BackupSummary) (B arn : String),
      fetch_arn_from_backup_name B avail = some arn →
      ∃ b ∈ avail, b.backup_name = some B ∧ b.backup_arn = some arn := by
  intro avail
  induction avail with
  | nil => intro B arn h; simp [fetch_arn_from_backup_name, findByName] at h
  | cons hd tl ih =>
    intro B arn h
    simp only [fetch_arn_from_backup_name, findByName] at h
    rcases hn : hd.backup_name with _ | n <;> rw [hn] at h <;> dsimp only at h
    · cases h
    · by_cases he : n = B
      · rw [if_pos he] at h
        dsimp only at h
        exact ⟨hd, List.mem_cons_self _ _, by rw [hn, he], h⟩
      · rw [if_neg he] at h
        rcases ih B arn (by simpa [fetch_arn_from_backup_name] using h) with ⟨b, hb, h1, h2⟩
        exact ⟨b, List.mem_cons_of_mem _ hb, h1, h2⟩

/-- Helper: when no backup of the list bears the searched name, the fetch
panics (the unwrap of the find result, or of a missing name, fails). -/
theorem fetch_arn_no_match :
    ∀ (avail : List BackupSummary) (B : String),
      (∀ b ∈ avail, b.backup_name ≠ some B) →
      fetch_arn_from_backup_name B avail = none := by
  intro avail
  induction avail with
  | nil => intro B _; rfl
  | cons hd tl ih =>
    intro B hno
    simp only [fetch_arn_from_backup_name, findByName]
    rcases hn : hd.backup_name with _ | n
    · rfl
    · have hne : n ≠ B := by
        intro hcontra
        exact hno hd (List.mem_cons_self _ _) (by rw [hn, hcontra])
      dsimp only
      rw [if_neg hne]
      have := ih B fun b hb => hno b (List.mem_cons_of_mem _ hb)
      simpa [fetch_arn_from_backup_name] using this

/-- C2: with an explicit backup name the restore workflow resolves only
among backups of the raw list whose status is "AVAILABLE"; and when no
available backup bears the given name — even if a backup of that name
exists in the raw list in another status — the resolution fails fatally
instead of resolving to that backup. -/
theorem restore_resolves_only_available :
    (∀ backups B restore_name source epoch selection callFails arn target cf,
      restore backups (some B) restore_name source epoch selection callFails =
        RestoreOutcome.finished arn target cf →
      ∃ b ∈ backups, b.backup_status = some "AVAILABLE" ∧
        b.backup_name = some B ∧ b.backup_arn = some arn) ∧
    (∀ backups B restore_name source epoch selection callFails avail,
      filterAvailable backups = some avail → avail ≠ [] →
      (∀ b ∈ avail, b.backup_name ≠ some B) →
      restore backups (some B) restore_name source epoch selection callFails =
        RestoreOutcome.panic) := by
  constructor
  · intro backups B restore_name source epoch selection callFails arn target cf h
    unfold restore at h
    rcases hfa : filterAvailable backups with _ | avail <;> rw [hfa] at h <;>
      dsimp only at h
    · cases h
    · by_cases hlen : avail.length = 0
      · rw [if_pos hlen] at h; cases h
      · rw [if_neg hlen] at h
        rcases hres : resolve_backup_arn (some B) avail selection with _ | arn' <;>
          rw [hres] at h <;> dsimp only at h
        · cases h
        · simp only [RestoreOutcome.finished.injEq] at h
          rcases h with ⟨rfl, -, -⟩
          have hf : fetch_arn_from_backup_name B avail = some arn' := hres
          rcases fetch_arn_sound avail B arn' hf with ⟨b, hb, h1, h2⟩
          rcases filterAvailable_mem backups avail hfa b hb with ⟨h3, h4⟩
          exact ⟨b, h3, h4, h1, h2⟩
  · intro backups B restore_name source epoch selection callFails avail hfa hne hno
    unfold restore
    rw [hfa]
    dsimp only
    rw [if_neg (by simpa [List.length_eq_zero] using hne)]
    have : resolve_backup_arn (some B) avail selection = none := by
      simpa [resolve_backup_arn] using fetch_arn_no_match avail B hno
    rw [this]

/-- C2 witness: with the raw list [A available, B expired], resolving the
explicit name "B" fails fatally even though "B" exists in the raw list. -/
theorem restore_resolves_only_available_witness :
    restore
      [{ backup_name := some "A", backup_arn := some "arnA",
         backup_status := some "AVAILABLE",
         backup_creation_date_time := some 0, backup_size_bytes := some 1 },
       { backup_name := some "B", backup_arn := some "arnB",
         backup_status := some "EXPIRED",
         backup_creation_date_time := some 0, backup_size_bytes := some 1 }]
      (some "B") none "tbl" 0 0 false = RestoreOutcome.panic :=
  restore_resolves_only_available.2
    [{ backup_name := some "A", backup_arn := some "arnA",
       backup_status := some "AVAILABLE",
       backup_creation_date_time := some 0, backup_size_bytes := some 1 },
     { backup_name := some "B", backup_arn := some "arnB",
       backup_status := some "EXPIRED",
       backup_creation_date_time := some 0, backup_size_bytes := some 1 }]
    "B" none "tbl" 0 0 false
    [{ backup_name := some "A", backup_arn := some "arnA",
       backup_status := some "AVAILABLE",
       backup_creation_date_time := some 0, backup_size_bytes := some 1 }]
    (by decide) (by decide) (by decide)

/-- Embedding of the full `restore` entry point (control.rs lines 375-445)
including the initial ListBackups fetch it awaits first (line 378):
`list_backups_api` (control.rs lines 501-517) on a service error prints the
error text and calls `std::process::exit(1)`, modelled with the same
print-and-exit outcome as `app::bye`; on success the workflow proceeds on
the fetched summaries. The fetch result is an input. -/
def restore_command (list_result : Except String (List BackupSummary))
    (backup_name restore_name : Option String) (source_table_name : String)
    (epoch : Nat) (selection : Nat) (callFails : Bool) : RestoreOutcome :=
  match list_result with
  | Except.error e => RestoreOutcome.bye 1 e
  | Except.ok backups =>
    restore backups backup_name restore_name source_table_name epoch selection callFails

/-- C3 counterexample: a run of the full restore command in which the
ListBackups fetch succeeds and the restore service call fails still
completes normally with exit code 0, not 1, and the error is only
debug-logged. -/
theorem restore_error_exit_counterexample :
    restore_command
      (Except.ok
        [{ backup_name := some "A", backup_arn := some "arnA",
           backup_status := some "AVAILABLE",
           backup_creation_date_time := some 0, backup_size_bytes := some 1 }])
      (some "A") (some "restored") "tbl" 0 0 true =
      RestoreOutcome.finished "arnA" "restored" true ∧
    restoreExitCode
      (restore_command
        (Except.ok
          [{ backup_name := some "A", backup_arn := some "arnA",
             backup_status := some "AVAILABLE",
             backup_creation_date_time := some 0, backup_size_bytes := some 1 }])
        (some "A") (some "restored") "tbl" 0 0 true) = 0 := by
  decide

/-- C3 (amended): in every run of the restore command in which the restore
service call is actually issued and fails, the error branch only logs the
error at debug level and does not terminate the process: the workflow
completes normally and the command exits with code 0, not 1. (Runs that
never reach the restore call are outside this statement; in particular a
ListBackups error still exits 1.) -/
theorem restore_failed_call_exits_zero :
    ∀ (list_result : Except String (List BackupSummary))
      (backup_name restore_name : Option String) (source : String)
      (epoch selection : Nat) (arn target : String),
      restore_command list_result backup_name restore_name source epoch selection true =
        RestoreOutcome.finished arn target true →
      restoreExitCode
        (restore_command list_result backup_name restore_name source epoch selection true) =
        0 := by
  intro list_result backup_name restore_name source epoch selection arn target h
  rw [h]
  rfl

/-- C3 witness: the amended statement at the counterexample's concrete run. -/
theorem restore_failed_call_exits_zero_witness :
    restoreExitCode
      (restore_command
        (Except.ok
          [{ backup_name := some "A", backup_arn := some "arnA",
             backup_status := some "AVAILABLE",
             backup_creation_date_time := some 0, backup_size_bytes := some 1 }])
        (some "A") (some "restored") "tbl" 0 0 true) = 0 :=
  restore_failed_call_exits_zero
    (Except.ok
      [{ backup_name := some "A", backup_arn := some "arnA",
         backup_status := some "AVAILABLE",
         backup_creation_date_time := some 0, backup_size_bytes := some 1 }])
    (some "A") (some "restored") "tbl" 0 0 "arnA" "restored" (by decide)

/-- C4: whenever the set of backups with status "AVAILABLE" is empty, the
restore workflow exits early via the bye outcome with exit code 0 and the
no-eligible-backup message, issuing no restore request. -/
theorem restore_no_available_early_exit :
    ∀ backups (backup_name restore_name : Option String) source epoch selection callFails,
      filterAvailable backups = some [] →
      restore backups backup_name restore_name source epoch selection callFails =
        RestoreOutcome.bye 0 "No AVAILABLE state backup found for the table." ∧
      restoreExitCode
        (restore backups backup_name restore_name source epoch selection callFails) = 0 := by
  intro backups backup_name restore_name source epoch selection callFails h
  constructor
  · unfold restore
    rw [h]
    rfl
  · unfold restore
    rw [h]
    rfl

/-- C4 witness: one backup in a non-available status filters to the empty
eligible set and the workflow exits early with code 0. -/
theorem restore_no_available_early_exit_witness :
    restore
      [{ backup_name := some "B", backup_arn := some "arnB",
         backup_status := some "EXPIRED",
         backup_creation_date_time := some 0, backup_size_bytes := some 1 }]
      none none "tbl" 0 0 false =
      RestoreOutcome.bye 0 "No AVAILABLE state backup found for the table." :=
  (restore_no_available_early_exit
    [{ backup_name := some "B", backup_arn := some "arnB",
       backup_status := some "EXPIRED",
       backup_creation_date_time := some 0, backup_size_bytes := some 1 }]
    none none "tbl" 0 0 false (by decide)).1

/-- C8: whenever the restore workflow reaches the restore request, the
target table name it passes is the supplied explicit name when one was
given, and otherwise exactly source ++ "--restore-" ++ the decimal UNIX
epoch seconds at invocation. -/
theorem restore_target_table_name :
    ∀ backups (backup_name restore_name : Option String) source epoch selection
      callFails arn target cf,
      restore backups backup_name restore_name source epoch selection callFails =
        RestoreOutcome.finished arn target cf →
      (restore_name = none → target = source ++ "--restore-" ++ Nat.repr epoch) ∧
      (∀ r, restore_name = some r → target = r) := by
  intro backups backup_name restore_name source epoch selection callFails arn target cf h
  unfold restore at h
  rcases hfa : filterAvailable backups with _ | avail <;> rw [hfa] at h <;> dsimp only at h
  · cases h
  · by_cases hlen : avail.length = 0
    · rw [if_pos hlen] at h; cases h
    · rw [if_neg hlen] at h
      rcases hres : resolve_backup_arn backup_name avail selection with _ | arn' <;>
        rw [hres] at h <;> dsimp only at h
      · cases h
      · simp only [RestoreOutcome.finished.injEq] at h
        rcases h with ⟨-, htgt, -⟩
        constructor
        · intro hrn
          rw [hrn] at htgt
          exact htgt.symm
        · intro r hrn
          rw [hrn] at htgt
          exact htgt.symm

/-- C8 witness: with no explicit target name, source "tbl" and epoch 42,
the target table name is "tbl--restore-42". -/
theorem restore_target_table_name_witness :
    ("tbl--restore-42" : String) = "tbl" ++ "--restore-" ++ Nat.repr 42 :=
  (restore_target_table_name
    [{ backup_name := some "A", backup_arn := some "arnA",
       backup_status := some "AVAILABLE",
       backup_creation_date_time := some 0, backup_size_bytes := some 1 }]
    (some "A") none "tbl" 42 0 false "arnA" "tbl--restore-42" false
    (by decide)).1 rfl
